import Mathlib

set_option maxHeartbeats 1000000

namespace Dotfiles

/-! Helpers modelling Python string primitives over `List Char`. -/

namespace Py

/-- Models the whitespace set removed by Python `str.strip()`. -/
def pyIsSpace (c : Char) : Bool :=
  c == ' ' || c == '\t' || c == '\n' || c == '\r' || c == '\x0b' || c == '\x0c'

/-- Models Python `str.strip()`: drop whitespace from both ends. -/
def pyStrip (s : List Char) : List Char :=
  ((s.dropWhile pyIsSpace).reverse.dropWhile pyIsSpace).reverse

/-- Nonempty all-digit string: the language of the regex fragment `\d+`. -/
def isDigitStr (s : List Char) : Bool :=
  !s.isEmpty && s.all (fun c => c.isDigit)

/-- The language of the regex fragment `-?\d+`. -/
def signedDigits (s : List Char) : Bool :=
  match s with
  | [] => false
  | c :: rest => if c = '-' then isDigitStr rest else isDigitStr (c :: rest)

/-- Decimal value of a digit string. -/
def natFromDigits (s : List Char) : Nat :=
  Nat.ofDigits 10 ((s.map (fun c => c.toNat - 48)).reverse)

/-- Models Python `int(s)` on the string shapes arising at the call sites
embedded here: an optional sign followed by decimal digits (surrounding
whitespace and digit-group underscores never occur at those call sites);
anything else raises ValueError, modelled as `none`. -/
def pyIntOfString (s : List Char) : Option Int :=
  match s with
  | [] => none
  | c :: rest =>
    if c = '-' then (if isDigitStr rest then some (-(natFromDigits rest : Int)) else none)
    else if c = '+' then (if isDigitStr rest then some ((natFromDigits rest : Int)) else none)
    else if isDigitStr (c :: rest) then some ((natFromDigits (c :: rest) : Int)) else none

/-- Decimal rendering of a natural number, as Python `repr`/`json.dump` writes it. -/
def natToChars (n : Nat) : List Char :=
  if n = 0 then ['0']
  else ((Nat.digits 10 n).map (fun d => Char.ofNat (48 + d))).reverse

/-- Decimal rendering of an integer, as Python `repr`/`json.dump` writes it. -/
def pyIntRepr (i : Int) : List Char :=
  if i < 0 then '-' :: natToChars i.natAbs else natToChars i.toNat

/-- Splitting a character list at every occurrence of `sep`. Used below to
embed the anchored topic-URL regex, whose groups are `sep`-free. -/
def splitOnChar (sep : Char) : List Char → List (List Char)
  | [] => [[]]
  | c :: rest =>
    match splitOnChar sep rest with
    | [] => [[c]]
    | h :: t => if c = sep then [] :: h :: t else (c :: h) :: t

/-- Joining parts with a separator: the inverse of `splitOnChar`. -/
def joinSep (sep : Char) : List (List Char) → List Char
  | [] => []
  | [p] => p
  | p :: ps => p ++ sep :: joinSep sep ps

end Py

/-! Embedding of `FedoraXFCE/bin/speakflow` (main.py, config.py, paster.py). -/

namespace SpeakFlow

/-- String constant `State.IDLE` of speakflow/config.py (line 30). -/
def State.IDLE : String := "idle"

/-- String constant `State.RECORDING` of speakflow/config.py (line 31). -/
def State.RECORDING : String := "recording"

/-- String constant `State.PROCESSING` of speakflow/config.py (line 32). -/
def State.PROCESSING : String := "processing"

/-- Result of a Python call that may raise an exception. -/
inductive Res (α : Type) where
  | ok (a : α)
  | exn
deriving DecidableEq

/-- Outcomes of the three collaborator calls made by `_process_audio`:
`recorder.stop_recording()`, `transcriber.transcribe(...)`,
`paster.paste_text(...)`. -/
structure ProcessEnv where
  stopResult : Res (Option String)
  transcribeResult : Res (Option (List Char))
  pasteResult : Res Bool

/-- Steps of the `_process_audio` pipeline, recorded in execution order. -/
inductive Ev where
  | stopRec
  | transcribe
  | paste
deriving DecidableEq

/-- Thread target: `_process_audio` is the only target ever handed to
`threading.Thread` in main.py. -/
inductive ThreadTarget where
  | processAudio
deriving DecidableEq

/-- A `threading.Thread` as configured by the code (daemon flag, target). -/
structure SfThread where
  daemon : Bool
  target : ThreadTarget
deriving DecidableEq

/-- Observable result of one run of `_process_audio`: final value of
`self.state`, final tray-icon state, collaborator calls made, threads spawned. -/
structure ProcOut where
  state : String
  tray : String
  events : List Ev
  spawned : List SfThread
deriving DecidableEq

/-- The test `text is None or not text.strip()` of main.py line 94. -/
def transcribedEmpty (t : Option (List Char)) : Bool :=
  match t with
  | none => true
  | some s => (Py.pyStrip s).isEmpty

/-- Embeds `SpeakFlow._process_audio` (main.py lines 78-116): stop the
recorder, transcribe, paste, with the whole body wrapped in try/except that
resets state and tray to IDLE. -/
def process_audio (env : ProcessEnv) : ProcOut :=
  match env.stopResult with
  | .exn => ⟨State.IDLE, State.IDLE, [.stopRec], []⟩
  | .ok none => ⟨State.IDLE, State.IDLE, [.stopRec], []⟩
  | .ok (some _) =>
    match env.transcribeResult with
    | .exn => ⟨State.IDLE, State.IDLE, [.stopRec, .transcribe], []⟩
    | .ok t =>
      if transcribedEmpty t then
        ⟨State.IDLE, State.IDLE, [.stopRec, .transcribe], []⟩
      else
        match env.pasteResult with
        | .exn => ⟨State.IDLE, State.IDLE, [.stopRec, .transcribe, .paste], []⟩
        | .ok _ => ⟨State.IDLE, State.IDLE, [.stopRec, .transcribe, .paste], []⟩

/-- Result of the synchronous (hotkey-side) operations: final `self.state`,
final tray state, threads spawned. -/
structure HkOut where
  state : String
  tray : String
  spawned : List SfThread
deriving DecidableEq

/-- Embeds `SpeakFlow._start_recording` (main.py lines 56-65): set state and
tray to RECORDING, then revert both to IDLE if `recorder.start_recording()`
returns False. -/
def start_recording (startOk : Bool) : HkOut :=
  if startOk then ⟨State.RECORDING, State.RECORDING, []⟩
  else ⟨State.IDLE, State.IDLE, []⟩

/-- Embeds `SpeakFlow._stop_recording_and_process` (main.py lines 67-76): set
state and tray to PROCESSING and start one daemon thread running
`_process_audio`. -/
def stop_recording_and_process : HkOut :=
  ⟨State.PROCESSING, State.PROCESSING, [⟨true, .processAudio⟩]⟩

/-- Embeds `SpeakFlow.on_hotkey_pressed` (main.py lines 46-54). -/
def on_hotkey_pressed (startOk : Bool) (st tray : String) : HkOut :=
  if st = State.IDLE then start_recording startOk
  else if st = State.RECORDING then stop_recording_and_process
  else ⟨st, tray, []⟩

/-- External events driving the orchestrator state: a hotkey press (with the
recorder start outcome) and the completion of a spawned `_process_audio` run
(with its collaborator outcomes). -/
inductive Act where
  | hotkey (startOk : Bool)
  | procDone (env : ProcessEnv)

/-- Effect of one external event on `self.state`. -/
def stepState (st : String) (a : Act) : String :=
  match a with
  | .hotkey b => (on_hotkey_pressed b st st).state
  | .procDone env => (process_audio env).state

/-- Value of `self.state` after a sequence of events, starting from the
initial `State.IDLE` assigned in `__init__` (main.py line 34). -/
def runApp (acts : List Act) : String :=
  acts.foldl stepState State.IDLE

/-- Events emitted by `TextPaster` (paster.py): clipboard operations and
synthetic key presses. -/
inductive PEv where
  | clipClear
  | clipCopy (text : List Char)
  | ctrlV
  | clipRestore
  | typeChar (c : Char)
deriving DecidableEq

/-- Outcomes of the external clipboard / keyboard calls made by `TextPaster`:
whether `pyperclip.copy(text)` raises, the clipboard verification outcome
(`none` models a verification read that raises and is ignored), whether the
original clipboard was saved, and whether/where direct typing raises. -/
structure PasteEnv where
  copyRaises : Bool
  verifyResult : Option Bool
  originalSaved : Bool
  typingRaisesAfter : Option Nat

/-- Embeds `TextPaster._type_directly` (paster.py lines 115-139): type each
character; an exception after `k` characters yields False. -/
def type_directly (env : PasteEnv) (text : List Char) : Bool × List PEv :=
  match env.typingRaisesAfter with
  | none => (true, text.map PEv.typeChar)
  | some k => (false, (text.take k).map PEv.typeChar)

/-- Embeds `TextPaster._paste_via_clipboard` (paster.py lines 48-113): clear
clipboard, copy text, verify (a failed verification returns False before any
key press), press Ctrl+V, optionally restore the saved clipboard. -/
def paste_via_clipboard (env : PasteEnv) (text : List Char) (restore : Bool) :
    Bool × List PEv :=
  if env.copyRaises then (false, [PEv.clipClear])
  else
    match env.verifyResult with
    | some false => (false, [PEv.clipClear, PEv.clipCopy text])
    | _ =>
      (true, [PEv.clipClear, PEv.clipCopy text, PEv.ctrlV]
        ++ (if restore && env.originalSaved then [PEv.clipRestore] else []))

/-- Embeds `TextPaster.paste_text` (paster.py lines 17-46): empty text returns
False at once; otherwise prefer direct typing when asked, else clipboard paste
with optional typing fallback. -/
def paste_text (env : PasteEnv) (text : List Char)
    (restore_clipboard use_fallback prefer_typing : Bool) : Bool × List PEv :=
  if text.isEmpty then (false, [])
  else if prefer_typing then type_directly env text
  else
    let r1 := paste_via_clipboard env text restore_clipboard
    if !r1.1 && use_fallback then
      let r2 := type_directly env text
      (r2.1, r1.2 ++ r2.2)
    else r1

end SpeakFlow

/-! Embedding of `FedoraXFCE/bin/convert.py`. -/

namespace Convert

/-- Constant `FFMPEG` of convert.py (line 9). -/
def FFMPEG : String := "ffmpeg"

/-- Embeds `make_paths` (convert.py lines 36-44): for a source with the given
stem, the output paths `<outdir>/<stem>-result.mp4` and
`<outdir>/<stem>-audio.m4a`. -/
def make_paths (outdir stem : String) : String × String :=
  (outdir ++ "/" ++ stem ++ "-result.mp4", outdir ++ "/" ++ stem ++ "-audio.m4a")

/-- The ffmpeg argument list built by `complress_to_telegram` (convert.py
lines 54-67), as a function of the varying source and destination paths. -/
def complress_to_telegram_args (src dst : String) : List String :=
  [FFMPEG, "-y", "-i", src,
   "-map_metadata", "-1",
   "-max_muxing_queue_size", "512",
   "-vf", "scale=trunc(iw/2):trunc(ih/2):flags=lanczos",
   "-r", "15",
   "-crf", "25",
   "-vcodec", "libx264", "-preset", "slow", "-profile:v", "main", "-pix_fmt", "yuv420p",
   "-c:a", "aac", "-ac", "1", "-b:a", "64k",
   "-movflags", "+faststart",
   dst]

/-- The fixed part of the telegram ffmpeg template: everything between the
input path and the output path. -/
def telegramFixedFlags : List String :=
  ["-map_metadata", "-1",
   "-max_muxing_queue_size", "512",
   "-vf", "scale=trunc(iw/2):trunc(ih/2):flags=lanczos",
   "-r", "15",
   "-crf", "25",
   "-vcodec", "libx264", "-preset", "slow", "-profile:v", "main", "-pix_fmt", "yuv420p",
   "-c:a", "aac", "-ac", "1", "-b:a", "64k",
   "-movflags", "+faststart"]

/-- The flag sequence asserted by the claim, in the claim's order: first
`-r 15`, then the scale filter, then CRF, preset and audio flags. -/
def claimedTelegramFlagSeq : List String :=
  ["-r", "15", "scale=trunc(iw/2):trunc(ih/2):flags=lanczos",
   "-crf", "25", "-preset", "slow", "-c:a", "aac", "-ac", "1", "-b:a", "64k"]

/-- The same flags in the order the code actually emits them: the scale
filter precedes `-r 15`. -/
def actualTelegramFlagSeq : List String :=
  ["scale=trunc(iw/2):trunc(ih/2):flags=lanczos", "-r", "15",
   "-crf", "25", "-preset", "slow", "-c:a", "aac", "-ac", "1", "-b:a", "64k"]

/-- External ffmpeg invocations made for one source file. -/
inductive FfCall where
  | video
  | audio
deriving DecidableEq

/-- Embeds the TELEGRAM branch of the per-file loop in `main` (convert.py
lines 343-367): compute what is left to do from the output files already
present, skip the file when nothing is, otherwise convert the video (for
video sources) and extract the audio. `existing` lists the paths present in
the output directory; the Bool result records whether the file was reported
as skipped. -/
def telegram_process_file (existing : List String) (outdir stem : String)
    (srcIsVideo : Bool) : List FfCall × Bool :=
  let vout := (make_paths outdir stem).1
  let aout := (make_paths outdir stem).2
  let todo : List String :=
    (if vout ∈ existing then [] else ["video"]) ++
    (if aout ∈ existing then [] else ["audio"])
  if todo.isEmpty then ([], true)
  else
    ((if "video" ∈ todo ∧ srcIsVideo = true then [FfCall.video] else [])
      ++ [FfCall.audio], false)

end Convert

/-! Embedding of `FedoraXFCE/bin/telegram_screenshot.py`. -/

namespace TgScreenshot

/-- Python exceptions raised by the config and URL helpers. -/
inductive PyErr where
  | valueError
  | fileNotFoundError
deriving DecidableEq

/-- The fixed head `https://t.me/c/` of the topic-URL regex. -/
def topicHead : List Char := "https://t.me/c/".toList

/-- Embeds the anchored regex match of `parse_telegram_topic_url`
(telegram_screenshot.py line 208), returning the first two groups. Because
the groups of the regex match no slash and its literal part is fixed, a
string matches the anchored regex exactly when its split at every slash has
one of these two shapes. -/
def matchTopicUrl (s : List Char) : Option (List Char × List Char) :=
  match Py.splitOnChar '/' s with
  | [h1, h2, h3, h4, g1, g2] =>
    if h1 = "https:".toList ∧ h2 = [] ∧ h3 = "t.me".toList ∧ h4 = "c".toList
        ∧ Py.signedDigits g1 = true ∧ Py.isDigitStr g2 = true
    then some (g1, g2) else none
  | [h1, h2, h3, h4, g1, g2, g3] =>
    if h1 = "https:".toList ∧ h2 = [] ∧ h3 = "t.me".toList ∧ h4 = "c".toList
        ∧ Py.signedDigits g1 = true ∧ Py.isDigitStr g2 = true ∧ Py.isDigitStr g3 = true
    then some (g1, g2) else none
  | _ => none

/-- Embeds `parse_telegram_topic_url` (telegram_screenshot.py lines 200-216):
strip the input, match the regex (no match raises ValueError), then compute
`int("-100" + group1)` and `int(group2)`; a failing int() conversion also
raises ValueError. -/
def parse_telegram_topic_url (s : List Char) : Except PyErr (Int × Int) :=
  match matchTopicUrl (Py.pyStrip s) with
  | none => .error .valueError
  | some (g1, g2) =>
    match Py.pyIntOfString ('-' :: '1' :: '0' :: '0' :: g1), Py.pyIntOfString g2 with
    | some chat_id, some thread_id => .ok (chat_id, thread_id)
    | _, _ => .error .valueError

/-- The config file `~/.config/tgsnap/config.json`: absent, or holding the
decimal renderings that `json.dump` wrote for the two ids. -/
structure ConfigStore where
  file : Option (List Char × List Char)

/-- Embeds `save_config` (telegram_screenshot.py lines 182-186): write the
two ids to the config file, decimal-rendered by `json.dump`. -/
def save_config (chat_id thread_id : Int) (_fs : ConfigStore) : ConfigStore :=
  ⟨some (Py.pyIntRepr chat_id, Py.pyIntRepr thread_id)⟩

/-- Embeds `load_config` (telegram_screenshot.py lines 189-197): a missing
file raises FileNotFoundError, otherwise the two stored numbers are read
back (json.load number parsing followed by `int(...)`). -/
def load_config (fs : ConfigStore) : Except PyErr (Int × Int) :=
  match fs.file with
  | none => .error .fileNotFoundError
  | some (c, t) =>
    match Py.pyIntOfString c, Py.pyIntOfString t with
    | some chat_id, some thread_id => .ok (chat_id, thread_id)
    | _, _ => .error .valueError

/-- Spec-side definition, following the amended claim's words: after
stripping, the inputs accepted with a value are `https://t.me/c/CHAT/THREAD`
or `https://t.me/c/CHAT/THREAD/MSG` with CHAT, THREAD, MSG nonempty unsigned
digit strings. -/
def OkTopicForm (t : List Char) : Prop :=
  ∃ chat thread : List Char, Py.isDigitStr chat = true ∧ Py.isDigitStr thread = true ∧
    (t = topicHead ++ chat ++ '/' :: thread
      ∨ ∃ msg : List Char, Py.isDigitStr msg = true
          ∧ t = topicHead ++ chat ++ '/' :: thread ++ '/' :: msg)

end TgScreenshot

/-! Lemmas about the Python string helpers. -/

namespace Py

theorem splitOnChar_ne_nil (sep : Char) (l : List Char) : splitOnChar sep l ≠ [] := by
  cases l with
  | nil => simp [splitOnChar]
  | cons c rest =>
    simp only [splitOnChar]
    cases h : splitOnChar sep rest with
    | nil => simp
    | cons a t =>
      by_cases hc : c = sep
      · simp [hc]
      · simp [hc]

theorem splitOnChar_not_mem {sep : Char} : ∀ {l : List Char}, sep ∉ l →
    splitOnChar sep l = [l]
  | [], _ => rfl
  | c :: rest, h => by
    have hc : c ≠ sep := fun he => h (by simp [he])
    have hr : sep ∉ rest := fun hm => h (List.mem_cons_of_mem _ hm)
    simp only [splitOnChar, splitOnChar_not_mem hr]
    simp [hc]

theorem splitOnChar_append {sep : Char} : ∀ {l₁ : List Char} (l₂ : List Char), sep ∉ l₁ →
    splitOnChar sep (l₁ ++ sep :: l₂) = l₁ :: splitOnChar sep l₂
  | [], l₂, _ => by
    simp only [List.nil_append, splitOnChar]
    cases h : splitOnChar sep l₂ with
    | nil => exact absurd h (splitOnChar_ne_nil sep l₂)
    | cons a t => simp
  | c :: l, l₂, h => by
    have hc : c ≠ sep := fun he => h (by simp [he])
    have hl : sep ∉ l := fun hm => h (List.mem_cons_of_mem _ hm)
    rw [List.cons_append]
    simp only [splitOnChar]
    rw [splitOnChar_append l₂ hl]
    simp [hc]

theorem splitOnChar_inv {sep : Char} : ∀ {l : List Char} {ps : List (List Char)},
    splitOnChar sep l = ps → l = joinSep sep ps := by
  intro l
  induction l with
  | nil =>
    intro ps h
    rw [← h]
    rfl
  | cons c rest ih =>
    intro ps h
    cases hq : splitOnChar sep rest with
    | nil => exact absurd hq (splitOnChar_ne_nil sep rest)
    | cons a t =>
      have hrest := ih hq
      simp only [splitOnChar, hq] at h
      by_cases hc : c = sep
      · rw [if_pos hc] at h
        subst h
        show c :: rest = [] ++ sep :: joinSep sep (a :: t)
        simp [hc, hrest]
      · rw [if_neg hc] at h
        subst h
        cases t with
        | nil =>
          simp only [joinSep] at hrest ⊢
          rw [hrest]
        | cons b t2 =>
          simp only [joinSep] at hrest ⊢
          rw [hrest]
          simp

theorem digit_char_isDigit {d : Nat} (hd : d < 10) :
    (Char.ofNat (48 + d)).isDigit = true := by
  interval_cases d <;> decide

theorem digit_char_toNat {d : Nat} (hd : d < 10) :
    (Char.ofNat (48 + d)).toNat - 48 = d := by
  interval_cases d <;> decide

theorem digit_not_space {c : Char} (h : c.isDigit = true) : pyIsSpace c = false := by
  cases hb : pyIsSpace c with
  | false => rfl
  | true =>
    exfalso
    simp only [pyIsSpace, Bool.or_eq_true, beq_iff_eq] at hb
    rcases hb with ((((rfl | rfl) | rfl) | rfl) | rfl) | rfl <;> exact absurd h (by decide)

theorem digitStr_mem {s : List Char} (h : isDigitStr s = true) {c : Char} (hc : c ∈ s) :
    c.isDigit = true := by
  simp only [isDigitStr, Bool.and_eq_true, List.all_eq_true] at h
  exact h.2 c hc

theorem digitStr_not_mem {s : List Char} (h : isDigitStr s = true) {c : Char}
    (hc : c.isDigit = false) : c ∉ s :=
  fun hm => absurd (digitStr_mem h hm) (by simp [hc])

theorem dropWhile_eq_self_of {p : Char → Bool} : ∀ {l : List Char},
    (∀ c ∈ l, p c = false) → l.dropWhile p = l
  | [], _ => rfl
  | c :: cs, h => by
    have hc : p c = false := h c (by simp)
    simp [List.dropWhile_cons, hc]

theorem pyStrip_of_no_space {s : List Char} (h : ∀ c ∈ s, pyIsSpace c = false) :
    pyStrip s = s := by
  unfold pyStrip
  rw [dropWhile_eq_self_of h]
  rw [dropWhile_eq_self_of (fun c hc => h c (List.mem_reverse.mp hc))]
  exact List.reverse_reverse s

theorem pyIntOfString_digitStr {s : List Char} (h : isDigitStr s = true) :
    pyIntOfString s = some ((natFromDigits s : Int)) := by
  cases s with
  | nil => simp [isDigitStr] at h
  | cons c cs =>
    have hc : c.isDigit = true := digitStr_mem h (by simp)
    have hm : c ≠ '-' := fun he => by rw [he] at hc; exact absurd hc (by decide)
    have hp : c ≠ '+' := fun he => by rw [he] at hc; exact absurd hc (by decide)
    simp [pyIntOfString, hm, hp, h]

theorem pyIntOfString_neg (l : List Char) (h : isDigitStr l = true) :
    pyIntOfString ('-' :: l) = some (-(natFromDigits l : Int)) := by
  simp [pyIntOfString, h]

theorem natToChars_digitStr (n : Nat) : isDigitStr (natToChars n) = true := by
  by_cases h0 : n = 0
  · subst h0; decide
  · unfold natToChars
    rw [if_neg h0]
    have hne : Nat.digits 10 n ≠ [] := Nat.digits_ne_nil_iff_ne_zero.mpr h0
    simp only [isDigitStr, Bool.and_eq_true]
    constructor
    · simp [hne]
    · rw [List.all_eq_true]
      intro x hx
      obtain ⟨d, hd, rfl⟩ := List.mem_map.mp (List.mem_reverse.mp hx)
      exact digit_char_isDigit (Nat.digits_lt_base (by norm_num) hd)

theorem natFromDigits_natToChars (n : Nat) : natFromDigits (natToChars n) = n := by
  by_cases h0 : n = 0
  · subst h0; decide
  · unfold natToChars natFromDigits
    rw [if_neg h0, List.map_reverse, List.reverse_reverse, List.map_map]
    have he : ∀ d ∈ Nat.digits 10 n,
        ((fun c : Char => c.toNat - 48) ∘ fun d : Nat => Char.ofNat (48 + d)) d = id d := by
      intro d hd
      simp only [Function.comp_apply, id_eq]
      exact digit_char_toNat (Nat.digits_lt_base (by norm_num) hd)
    rw [List.map_congr_left he, List.map_id, Nat.ofDigits_digits]

theorem pyIntOfString_pyIntRepr (i : Int) : pyIntOfString (pyIntRepr i) = some i := by
  unfold pyIntRepr
  by_cases hneg : i < 0
  · rw [if_pos hneg, pyIntOfString_neg _ (natToChars_digitStr _), natFromDigits_natToChars]
    congr 1
    omega
  · rw [if_neg hneg, pyIntOfString_digitStr (natToChars_digitStr _), natFromDigits_natToChars]
    congr 1
    omega

theorem signedDigits_of_digitStr {s : List Char} (h : isDigitStr s = true) :
    signedDigits s = true := by
  cases s with
  | nil => simp [isDigitStr] at h
  | cons c cs =>
    have hc : c.isDigit = true := digitStr_mem h (by simp)
    have hm : c ≠ '-' := fun he => by rw [he] at hc; exact absurd hc (by decide)
    simp [signedDigits, hm, h]

end Py

/-! Theorems about the SpeakFlow orchestrator. -/

namespace SpeakFlow

/-- Every run of `_process_audio` ends with state and tray IDLE and one of the
three pipeline traces. -/
theorem process_audio_cases (env : ProcessEnv) :
    process_audio env = ⟨State.IDLE, State.IDLE, [.stopRec], []⟩
    ∨ process_audio env = ⟨State.IDLE, State.IDLE, [.stopRec, .transcribe], []⟩
    ∨ process_audio env = ⟨State.IDLE, State.IDLE, [.stopRec, .transcribe, .paste], []⟩ := by
  rcases env with ⟨stop, tr, pa⟩
  cases stop with
  | exn => left; rfl
  | ok a =>
    cases a with
    | none => left; rfl
    | some f =>
      cases tr with
      | exn => right; left; rfl
      | ok t =>
        cases htb : transcribedEmpty t with
        | true => right; left; simp [process_audio, htb]
        | false =>
          cases pa with
          | exn => right; right; simp [process_audio, htb]
          | ok b => right; right; simp [process_audio, htb]

/-- One orchestrator step keeps the state inside the three-value set. -/
theorem stepState_mem (st : String) (a : Act)
    (h : st = State.IDLE ∨ st = State.RECORDING ∨ st = State.PROCESSING) :
    stepState st a = State.IDLE ∨ stepState st a = State.RECORDING
    ∨ stepState st a = State.PROCESSING := by
  cases a with
  | procDone env =>
    rcases process_audio_cases env with h1 | h1 | h1 <;>
      · left; simp [stepState, h1]
  | hotkey b =>
    rcases h with h | h | h <;> subst h <;> cases b <;> decide

/-- C1: every reachable value of the orchestrator's state field is one of the
three constants "idle", "recording", "processing". -/
theorem speakflow_state_invariant (acts : List Act) :
    runApp acts = State.IDLE ∨ runApp acts = State.RECORDING
    ∨ runApp acts = State.PROCESSING := by
  have aux : ∀ (l : List Act) (st : String),
      (st = State.IDLE ∨ st = State.RECORDING ∨ st = State.PROCESSING) →
      (l.foldl stepState st = State.IDLE ∨ l.foldl stepState st = State.RECORDING
        ∨ l.foldl stepState st = State.PROCESSING) := by
    intro l
    induction l with
    | nil => intro st h; simpa using h
    | cons a l ih =>
      intro st h
      simp only [List.foldl_cons]
      exact ih _ (stepState_mem st a h)
  exact aux acts State.IDLE (Or.inl rfl)

/-- C2: a hotkey press from IDLE moves to RECORDING (back to IDLE if the
recorder fails to start), from RECORDING to PROCESSING, and from PROCESSING
the press leaves the state unchanged. -/
theorem speakflow_hotkey_transitions (startOk : Bool) (tray : String) :
    (on_hotkey_pressed startOk State.IDLE tray).state
      = (if startOk then State.RECORDING else State.IDLE)
    ∧ (on_hotkey_pressed startOk State.RECORDING tray).state = State.PROCESSING
    ∧ (on_hotkey_pressed startOk State.PROCESSING tray).state = State.PROCESSING := by
  cases startOk <;> exact ⟨rfl, rfl, rfl⟩

/-- C3: whatever the collaborator outcomes (including exceptions at any
step), `_process_audio` ends with the state flag and the tray icon IDLE, with
no step retried. -/
theorem speakflow_process_audio_resets (env : ProcessEnv) :
    (process_audio env).state = State.IDLE
    ∧ (process_audio env).tray = State.IDLE
    ∧ (process_audio env).events.Nodup := by
  rcases process_audio_cases env with h | h | h <;> rw [h] <;>
    exact ⟨rfl, rfl, by decide⟩

/-- C4: `_process_audio` performs its steps in the fixed order stop,
transcribe, paste (each trace is a prefix of that pipeline), and the paste
step runs exactly when the recorder returned a file and the transcription
returned text nonempty after stripping. -/
theorem speakflow_pipeline_order (env : ProcessEnv) :
    ((process_audio env).events = [Ev.stopRec]
      ∨ (process_audio env).events = [Ev.stopRec, Ev.transcribe]
      ∨ (process_audio env).events = [Ev.stopRec, Ev.transcribe, Ev.paste])
    ∧ (Ev.paste ∈ (process_audio env).events
        ↔ (∃ f, env.stopResult = Res.ok (some f))
          ∧ (∃ s, env.transcribeResult = Res.ok (some s) ∧ Py.pyStrip s ≠ [])) := by
  rcases env with ⟨stop, tr, pa⟩
  cases stop with
  | exn => exact ⟨Or.inl rfl, by simp [process_audio]⟩
  | ok a =>
    cases a with
    | none => exact ⟨Or.inl rfl, by simp [process_audio]⟩
    | some f =>
      cases tr with
      | exn => exact ⟨Or.inr (Or.inl rfl), by simp [process_audio]⟩
      | ok t =>
        cases t with
        | none =>
          refine ⟨Or.inr (Or.inl (by simp [process_audio, transcribedEmpty])), ?_⟩
          simp [process_audio, transcribedEmpty]
        | some s =>
          cases htb : (Py.pyStrip s).isEmpty with
          | true =>
            have hnil : Py.pyStrip s = [] := by
              simpa [List.isEmpty_iff] using htb
            refine ⟨Or.inr (Or.inl ?_), ?_⟩
            · simp [process_audio, transcribedEmpty, htb]
            · simp [process_audio, transcribedEmpty, htb, hnil]
          | false =>
            have hne : Py.pyStrip s ≠ [] := by
              simpa [List.isEmpty_eq_false] using htb
            cases pa with
            | exn =>
              refine ⟨Or.inr (Or.inr ?_), ?_⟩
              · simp [process_audio, transcribedEmpty, htb]
              · simp [process_audio, transcribedEmpty, htb]
                exact hne
            | ok b =>
              refine ⟨Or.inr (Or.inr ?_), ?_⟩
              · simp [process_audio, transcribedEmpty, htb]
              · simp [process_audio, transcribedEmpty, htb]
                exact hne

/-- C8: `_stop_recording_and_process` spawns exactly one daemon thread whose
target is `_process_audio`; the other orchestrator operations spawn none. -/
theorem speakflow_single_thread (startOk : Bool) (tray : String) (env : ProcessEnv) :
    stop_recording_and_process.spawned = [⟨true, ThreadTarget.processAudio⟩]
    ∧ (on_hotkey_pressed startOk State.RECORDING tray).spawned
        = [⟨true, ThreadTarget.processAudio⟩]
    ∧ (start_recording startOk).spawned = []
    ∧ (on_hotkey_pressed startOk State.IDLE tray).spawned = []
    ∧ (on_hotkey_pressed startOk State.PROCESSING tray).spawned = []
    ∧ (process_audio env).spawned = [] := by
  refine ⟨rfl, rfl, ?_, ?_, rfl, ?_⟩
  · cases startOk <;> rfl
  · cases startOk <;> rfl
  · rcases process_audio_cases env with h | h | h <;> simp [h]

/-- C10: `paste_text` with empty text returns False and performs no clipboard
operation and no synthetic key press, whatever the flags and environment. -/
theorem paster_empty_text (env : PasteEnv) (r fb pt : Bool) :
    paste_text env [] r fb pt = (false, []) := rfl

end SpeakFlow

/-! Theorems about convert.py. -/

namespace Convert

/-- C7 counterexample: the flag sequence in the order the claim states it
(`-r 15` before the scale filter) is not a subsequence of the argument list
the code builds. -/
theorem convert_telegram_flag_order_cex :
    ¬ List.Sublist claimedTelegramFlagSeq
      (complress_to_telegram_args "in.mov" "out.mp4") := by
  decide

/-- C7 (amended): the telegram ffmpeg command is one fixed template in which
only the input and output paths vary, and it contains the scale filter, then
`-r 15`, then `-crf 25`, `-preset slow` and `-c:a aac -ac 1 -b:a 64k`, in
that order. -/
theorem convert_telegram_fixed_flags (src dst : String) :
    complress_to_telegram_args src dst
      = [FFMPEG, "-y", "-i", src] ++ telegramFixedFlags ++ [dst]
    ∧ List.Sublist actualTelegramFlagSeq (complress_to_telegram_args src dst) := by
  constructor
  · rfl
  · have h1 : List.Sublist actualTelegramFlagSeq telegramFixedFlags := by decide
    have h2 : List.Sublist telegramFixedFlags (telegramFixedFlags ++ [dst]) :=
      List.sublist_append_left _ _
    have h3 : List.Sublist (telegramFixedFlags ++ [dst])
        ([FFMPEG, "-y", "-i", src] ++ (telegramFixedFlags ++ [dst])) :=
      List.sublist_append_right _ _
    have h4 : complress_to_telegram_args src dst
        = [FFMPEG, "-y", "-i", src] ++ (telegramFixedFlags ++ [dst]) := rfl
    rw [h4]
    exact (h1.trans h2).trans h3

/-- C9: in TELEGRAM mode, a source file whose two output paths both already
exist is reported as skipped and triggers no ffmpeg invocation. -/
theorem convert_telegram_skip (existing : List String) (outdir stem : String)
    (srcIsVideo : Bool)
    (h1 : (make_paths outdir stem).1 ∈ existing)
    (h2 : (make_paths outdir stem).2 ∈ existing) :
    telegram_process_file existing outdir stem srcIsVideo = ([], true) := by
  simp [telegram_process_file, h1, h2]

/-- Witness for C9 at a concrete directory listing. -/
theorem convert_telegram_skip_witness :
    telegram_process_file ["video_x2/a-result.mp4", "video_x2/a-audio.m4a"]
      "video_x2" "a" true = ([], true) :=
  convert_telegram_skip ["video_x2/a-result.mp4", "video_x2/a-audio.m4a"]
    "video_x2" "a" true (by decide) (by decide)

end Convert


/-! Additional digit-string lemmas. -/

namespace Py

theorem digitStr_all {s : List Char} (h : isDigitStr s = true) :
    s.all (fun x => x.isDigit) = true := by
  simp only [isDigitStr, Bool.and_eq_true] at h
  exact h.2

theorem all_digit_cons {c : Char} {s : List Char} (hc : c.isDigit = true)
    (hs : s.all (fun x => x.isDigit) = true) :
    (c :: s).all (fun x => x.isDigit) = true := by
  simp [List.all_cons, hc, hs]

theorem isDigitStr_cons {c : Char} {s : List Char} (hc : c.isDigit = true)
    (hs : s.all (fun x => x.isDigit) = true) : isDigitStr (c :: s) = true := by
  simp [isDigitStr, List.all_cons, hc, hs]

end Py

/-! Theorems about telegram_screenshot.py. -/

namespace TgScreenshot

theorem digit_no_space {s : List Char} (h : Py.isDigitStr s = true) :
    ∀ c ∈ s, Py.pyIsSpace c = false :=
  fun _ hm => Py.digit_not_space (Py.digitStr_mem h hm)

theorem topicHead_no_space : ∀ c ∈ topicHead, Py.pyIsSpace c = false := by
  decide

theorem url2_no_space {g1 g2 : List Char}
    (h1 : ∀ c ∈ g1, Py.pyIsSpace c = false) (h2 : ∀ c ∈ g2, Py.pyIsSpace c = false) :
    ∀ c ∈ topicHead ++ g1 ++ '/' :: g2, Py.pyIsSpace c = false := by
  intro c hm
  simp only [List.mem_append, List.mem_cons] at hm
  rcases hm with (hm | hm) | (rfl | hm)
  · exact topicHead_no_space c hm
  · exact h1 c hm
  · rfl
  · exact h2 c hm

theorem url3_no_space {g1 g2 g3 : List Char}
    (h1 : ∀ c ∈ g1, Py.pyIsSpace c = false) (h2 : ∀ c ∈ g2, Py.pyIsSpace c = false)
    (h3 : ∀ c ∈ g3, Py.pyIsSpace c = false) :
    ∀ c ∈ topicHead ++ g1 ++ '/' :: g2 ++ '/' :: g3, Py.pyIsSpace c = false := by
  intro c hm
  simp only [List.mem_append, List.mem_cons] at hm
  rcases hm with ((hm | hm) | (rfl | hm)) | (rfl | hm)
  · exact topicHead_no_space c hm
  · exact h1 c hm
  · rfl
  · exact h2 c hm
  · rfl
  · exact h3 c hm

theorem split_topic_two {g1 g2 : List Char} (hn1 : '/' ∉ g1) (hn2 : '/' ∉ g2) :
    Py.splitOnChar '/' (topicHead ++ g1 ++ '/' :: g2)
      = ["https:".toList, [], "t.me".toList, "c".toList, g1, g2] := by
  have e : topicHead ++ g1 ++ '/' :: g2
      = "https:".toList ++ '/' :: (([] : List Char) ++ '/' :: ("t.me".toList
          ++ '/' :: ("c".toList ++ '/' :: (g1 ++ '/' :: g2)))) := by
    rw [List.append_assoc]
    rfl
  rw [e, Py.splitOnChar_append _ (by decide), Py.splitOnChar_append _ (by simp),
      Py.splitOnChar_append _ (by decide), Py.splitOnChar_append _ (by decide),
      Py.splitOnChar_append _ hn1, Py.splitOnChar_not_mem hn2]

theorem split_topic_three {g1 g2 g3 : List Char} (hn1 : '/' ∉ g1) (hn2 : '/' ∉ g2)
    (hn3 : '/' ∉ g3) :
    Py.splitOnChar '/' (topicHead ++ g1 ++ '/' :: g2 ++ '/' :: g3)
      = ["https:".toList, [], "t.me".toList, "c".toList, g1, g2, g3] := by
  have e : topicHead ++ g1 ++ '/' :: g2 ++ '/' :: g3
      = "https:".toList ++ '/' :: (([] : List Char) ++ '/' :: ("t.me".toList
          ++ '/' :: ("c".toList ++ '/' :: (g1 ++ '/' :: (g2 ++ '/' :: g3))))) := by
    rw [List.append_assoc, List.append_assoc]
    rfl
  rw [e, Py.splitOnChar_append _ (by decide), Py.splitOnChar_append _ (by simp),
      Py.splitOnChar_append _ (by decide), Py.splitOnChar_append _ (by decide),
      Py.splitOnChar_append _ hn1, Py.splitOnChar_append _ hn2,
      Py.splitOnChar_not_mem hn3]

theorem joinSep_topic_two (g1 g2 : List Char) :
    Py.joinSep '/' [['h', 't', 't', 'p', 's', ':'], [], ['t', '.', 'm', 'e'], ['c'], g1, g2]
      = topicHead ++ g1 ++ '/' :: g2 := by
  rw [List.append_assoc]
  rfl

theorem joinSep_topic_three (g1 g2 g3 : List Char) :
    Py.joinSep '/'
        [['h', 't', 't', 'p', 's', ':'], [], ['t', '.', 'm', 'e'], ['c'], g1, g2, g3]
      = topicHead ++ g1 ++ '/' :: g2 ++ '/' :: g3 := by
  rw [List.append_assoc, List.append_assoc]
  rfl

theorem matchTopicUrl_two {g1 g2 : List Char} (hs1 : Py.signedDigits g1 = true)
    (h2 : Py.isDigitStr g2 = true) (hn1 : '/' ∉ g1) :
    matchTopicUrl (topicHead ++ g1 ++ '/' :: g2) = some (g1, g2) := by
  have hn2 : '/' ∉ g2 := Py.digitStr_not_mem h2 (by decide)
  unfold matchTopicUrl
  rw [split_topic_two hn1 hn2]
  simp [hs1, h2]

theorem matchTopicUrl_three {g1 g2 g3 : List Char} (hs1 : Py.signedDigits g1 = true)
    (h2 : Py.isDigitStr g2 = true) (h3 : Py.isDigitStr g3 = true) (hn1 : '/' ∉ g1) :
    matchTopicUrl (topicHead ++ g1 ++ '/' :: g2 ++ '/' :: g3) = some (g1, g2) := by
  have hn2 : '/' ∉ g2 := Py.digitStr_not_mem h2 (by decide)
  have hn3 : '/' ∉ g3 := Py.digitStr_not_mem h3 (by decide)
  unfold matchTopicUrl
  rw [split_topic_three hn1 hn2 hn3]
  simp [hs1, h2, h3]

theorem chat_digits_100 {chat : List Char} (hc : Py.isDigitStr chat = true) :
    Py.isDigitStr ('1' :: '0' :: '0' :: chat) = true :=
  Py.isDigitStr_cons (by decide)
    (Py.all_digit_cons (by decide) (Py.all_digit_cons (by decide) (Py.digitStr_all hc)))

theorem parse_of_match_none {s : List Char}
    (h : matchTopicUrl (Py.pyStrip s) = none) :
    parse_telegram_topic_url s = .error .valueError := by
  unfold parse_telegram_topic_url
  rw [h]

theorem parse_of_match_some {s g1 g2 : List Char}
    (h : matchTopicUrl (Py.pyStrip s) = some (g1, g2)) :
    parse_telegram_topic_url s
      = match Py.pyIntOfString ('-' :: '1' :: '0' :: '0' :: g1), Py.pyIntOfString g2 with
        | some chat_id, some thread_id => Except.ok (chat_id, thread_id)
        | _, _ => Except.error PyErr.valueError := by
  unfold parse_telegram_topic_url
  rw [h]

theorem parse_of_ints {s g1 g2 : List Char} {c t : Int}
    (hmk : matchTopicUrl (Py.pyStrip s) = some (g1, g2))
    (h1 : Py.pyIntOfString ('-' :: '1' :: '0' :: '0' :: g1) = some c)
    (h2 : Py.pyIntOfString g2 = some t) :
    parse_telegram_topic_url s = .ok (c, t) := by
  rw [parse_of_match_some hmk, h1, h2]

theorem parse_of_int1_none {s g1 g2 : List Char}
    (hmk : matchTopicUrl (Py.pyStrip s) = some (g1, g2))
    (h1 : Py.pyIntOfString ('-' :: '1' :: '0' :: '0' :: g1) = none) :
    parse_telegram_topic_url s = .error .valueError := by
  rw [parse_of_match_some hmk, h1]

theorem parse_topic_two {chat thread : List Char} (hc : Py.isDigitStr chat = true)
    (ht : Py.isDigitStr thread = true) :
    parse_telegram_topic_url (topicHead ++ chat ++ '/' :: thread)
      = .ok (-(Py.natFromDigits ('1' :: '0' :: '0' :: chat) : Int),
             (Py.natFromDigits thread : Int)) := by
  have hn1 : '/' ∉ chat := Py.digitStr_not_mem hc (by decide)
  have hstrip : Py.pyStrip (topicHead ++ chat ++ '/' :: thread)
      = topicHead ++ chat ++ '/' :: thread :=
    Py.pyStrip_of_no_space (url2_no_space (digit_no_space hc) (digit_no_space ht))
  have hmk : matchTopicUrl (Py.pyStrip (topicHead ++ chat ++ '/' :: thread))
      = some (chat, thread) := by
    rw [hstrip]
    exact matchTopicUrl_two (Py.signedDigits_of_digitStr hc) ht hn1
  exact parse_of_ints hmk (Py.pyIntOfString_neg _ (chat_digits_100 hc))
    (Py.pyIntOfString_digitStr ht)

theorem parse_topic_three {chat thread msg : List Char} (hc : Py.isDigitStr chat = true)
    (ht : Py.isDigitStr thread = true) (hg : Py.isDigitStr msg = true) :
    parse_telegram_topic_url (topicHead ++ chat ++ '/' :: thread ++ '/' :: msg)
      = .ok (-(Py.natFromDigits ('1' :: '0' :: '0' :: chat) : Int),
             (Py.natFromDigits thread : Int)) := by
  have hn1 : '/' ∉ chat := Py.digitStr_not_mem hc (by decide)
  have hstrip : Py.pyStrip (topicHead ++ chat ++ '/' :: thread ++ '/' :: msg)
      = topicHead ++ chat ++ '/' :: thread ++ '/' :: msg :=
    Py.pyStrip_of_no_space
      (url3_no_space (digit_no_space hc) (digit_no_space ht) (digit_no_space hg))
  have hmk : matchTopicUrl (Py.pyStrip (topicHead ++ chat ++ '/' :: thread ++ '/' :: msg))
      = some (chat, thread) := by
    rw [hstrip]
    exact matchTopicUrl_three (Py.signedDigits_of_digitStr hc) ht hg hn1
  exact parse_of_ints hmk (Py.pyIntOfString_neg _ (chat_digits_100 hc))
    (Py.pyIntOfString_digitStr ht)

theorem parse_topic_minus {chat thread : List Char} (hc : Py.isDigitStr chat = true)
    (ht : Py.isDigitStr thread = true) :
    parse_telegram_topic_url (topicHead ++ ('-' :: chat) ++ '/' :: thread)
      = .error .valueError := by
  have hn1 : '/' ∉ ('-' :: chat) := by
    intro hm
    rcases List.mem_cons.mp hm with he | hm2
    · exact absurd he (by decide)
    · exact Py.digitStr_not_mem hc (by decide) hm2
  have hs1 : Py.signedDigits ('-' :: chat) = true := by
    simp [Py.signedDigits, hc]
  have hnos : ∀ c ∈ '-' :: chat, Py.pyIsSpace c = false := by
    intro c hm
    rcases List.mem_cons.mp hm with rfl | hm2
    · rfl
    · exact Py.digit_not_space (Py.digitStr_mem hc hm2)
  have hstrip : Py.pyStrip (topicHead ++ ('-' :: chat) ++ '/' :: thread)
      = topicHead ++ ('-' :: chat) ++ '/' :: thread :=
    Py.pyStrip_of_no_space (url2_no_space hnos (digit_no_space ht))
  have hmk : matchTopicUrl (Py.pyStrip (topicHead ++ ('-' :: chat) ++ '/' :: thread))
      = some ('-' :: chat, thread) := by
    rw [hstrip]
    exact matchTopicUrl_two hs1 ht hn1
  have hbad : Py.isDigitStr ('1' :: '0' :: '0' :: '-' :: chat) = false := by
    cases hfa : Py.isDigitStr ('1' :: '0' :: '0' :: '-' :: chat) with
    | false => rfl
    | true => exact absurd (Py.digitStr_mem (c := '-') hfa (by simp)) (by decide)
  have hx : Py.pyIntOfString ('-' :: '1' :: '0' :: '0' :: '-' :: chat) = none := by
    simp [Py.pyIntOfString, hbad]
  exact parse_of_int1_none hmk hx

theorem parse_topic_total (s : List Char) :
    parse_telegram_topic_url s = .error .valueError
    ∨ ∃ p, parse_telegram_topic_url s = .ok p := by
  cases hmk : matchTopicUrl (Py.pyStrip s) with
  | none => exact Or.inl (parse_of_match_none hmk)
  | some g =>
    obtain ⟨g1, g2⟩ := g
    rw [parse_of_match_some hmk]
    cases Py.pyIntOfString ('-' :: '1' :: '0' :: '0' :: g1) with
    | none => left; rfl
    | some c1 =>
      cases Py.pyIntOfString g2 with
      | none => left; rfl
      | some c2 =>
        right
        exact ⟨(c1, c2), rfl⟩

theorem digitStr_of_group {g1 : List Char} (hsg : Py.signedDigits g1 = true)
    (h100 : Py.isDigitStr ('1' :: '0' :: '0' :: g1) = true) :
    Py.isDigitStr g1 = true := by
  cases g1 with
  | nil => simp [Py.signedDigits] at hsg
  | cons c cs =>
    by_cases hcm : c = '-'
    · subst hcm
      exact absurd (Py.digitStr_mem (c := '-') h100 (by simp)) (by decide)
    · simpa [Py.signedDigits, hcm] using hsg

theorem parse_topic_sound {s : List Char} {p : Int × Int}
    (h : parse_telegram_topic_url s = .ok p) : OkTopicForm (Py.pyStrip s) := by
  cases hmk : matchTopicUrl (Py.pyStrip s) with
  | none =>
    rw [parse_of_match_none hmk] at h
    exact absurd h (by simp)
  | some g =>
    obtain ⟨g1, g2⟩ := g
    rw [parse_of_match_some hmk] at h
    cases hi1 : Py.pyIntOfString ('-' :: '1' :: '0' :: '0' :: g1) with
    | none =>
      rw [hi1] at h
      simp at h
    | some c1 =>
      have h100 : Py.isDigitStr ('1' :: '0' :: '0' :: g1) = true := by
        cases hq : Py.isDigitStr ('1' :: '0' :: '0' :: g1) with
        | true => rfl
        | false => simp [Py.pyIntOfString, hq] at hi1
      unfold matchTopicUrl at hmk
      rcases hps : Py.splitOnChar '/' (Py.pyStrip s) with
        _ | ⟨a1, _ | ⟨a2, _ | ⟨a3, _ | ⟨a4, _ | ⟨a5, _ | ⟨a6, _ | ⟨a7, _ | ⟨a8, rest⟩⟩⟩⟩⟩⟩⟩⟩ <;>
        rw [hps] at hmk <;> try simp at hmk
      · obtain ⟨⟨rfl, rfl, rfl, rfl, hsg, hdg2⟩, rfl, rfl⟩ := hmk
        have hdec := Py.splitOnChar_inv hps
        rw [joinSep_topic_two] at hdec
        exact ⟨a5, a6, digitStr_of_group hsg h100, hdg2, Or.inl hdec⟩
      · obtain ⟨⟨rfl, rfl, rfl, rfl, hsg, hdg2, hdg3⟩, rfl, rfl⟩ := hmk
        have hdec := Py.splitOnChar_inv hps
        rw [joinSep_topic_three] at hdec
        exact ⟨a5, a6, digitStr_of_group hsg h100, hdg2, Or.inr ⟨a7, hdg3, hdec⟩⟩

/-- C5 (amended): on inputs of the form `https://t.me/c/CHAT/THREAD` or the
same with a trailing `/MSG` component, with CHAT, THREAD, MSG unsigned digit
strings, the parser returns the pair made of `int` of `"-100"` prepended to
CHAT and `int(THREAD)`, ignoring the trailing MSG; a minus-signed CHAT
raises ValueError, because the int conversion of the concatenation fails;
and every input whose stripped form is not of the accepted shape raises
ValueError. -/
theorem tg_parse_topic_url (chat thread msg : List Char)
    (hc : Py.isDigitStr chat = true) (ht : Py.isDigitStr thread = true)
    (hm : Py.isDigitStr msg = true) :
    parse_telegram_topic_url (topicHead ++ chat ++ '/' :: thread)
      = .ok (-(Py.natFromDigits ('1' :: '0' :: '0' :: chat) : Int),
             (Py.natFromDigits thread : Int))
    ∧ parse_telegram_topic_url (topicHead ++ chat ++ '/' :: thread ++ '/' :: msg)
      = .ok (-(Py.natFromDigits ('1' :: '0' :: '0' :: chat) : Int),
             (Py.natFromDigits thread : Int))
    ∧ parse_telegram_topic_url (topicHead ++ ('-' :: chat) ++ '/' :: thread)
      = .error .valueError
    ∧ ∀ s : List Char, ¬ OkTopicForm (Py.pyStrip s) →
        parse_telegram_topic_url s = .error .valueError := by
  refine ⟨parse_topic_two hc ht, parse_topic_three hc ht hm, parse_topic_minus hc ht, ?_⟩
  intro s hn
  rcases parse_topic_total s with h | ⟨p, h⟩
  · exact h
  · exact absurd (parse_topic_sound h) hn

/-- Witness for C5 at the example link from the script's docstring. -/
theorem tg_parse_topic_url_witness :
    parse_telegram_topic_url ("https://t.me/c/1756893672/12759".toList)
      = .ok (-1001756893672, 12759) := by
  have h := (tg_parse_topic_url ("1756893672".toList) ("12759".toList) ("7".toList)
    (by decide) (by decide) (by decide)).1
  have e1 : Py.natFromDigits ('1' :: '0' :: '0' :: ("1756893672".toList))
      = 1001756893672 := by decide
  have e2 : Py.natFromDigits ("12759".toList) = 12759 := by decide
  rw [e1, e2] at h
  exact h

/-- C5 counterexample: the link whose CHAT group is the minus-signed digit
string `-5` and whose THREAD is `2` is of the claimed form, yet the function
raises ValueError instead of returning a pair; and a whitespace-padded link,
which is not literally of the claimed form, is accepted instead of raising. -/
theorem tg_parse_topic_url_cex :
    "https://t.me/c/-5/2".toList = topicHead ++ ('-' :: "5".toList) ++ '/' :: "2".toList
    ∧ Py.signedDigits ('-' :: "5".toList) = true
    ∧ parse_telegram_topic_url ("https://t.me/c/-5/2".toList)
        = Except.error PyErr.valueError
    ∧ parse_telegram_topic_url (' ' :: "https://t.me/c/1/2".toList)
        = Except.ok (-1001, 2) := by
  refine ⟨rfl, rfl, rfl, rfl⟩

/-- C6: saving a pair of ids and loading the config back returns exactly the
saved pair, whatever the previous file contents. -/
theorem tg_config_round_trip (chat_id thread_id : Int) (fs : ConfigStore) :
    load_config (save_config chat_id thread_id fs) = .ok (chat_id, thread_id) := by
  simp [load_config, save_config, Py.pyIntOfString_pyIntRepr]

end TgScreenshot

end Dotfiles
